import Mathlib

/-!
Shallow embedding of `metadrive/policy/manual_control_policy.py`.

Action components are modelled as rationals; Python lists of floats become
`List ℚ`.  Engine state read by the policies (global config flags, the
currently tracked agent, the camera mode, the per-tick external action, the
raw action and button state polled from the controller, the numpy random draw) is
passed in explicitly as per-tick input records.  Mutable policy attributes
(`self.takeover`, `self.current_takeover_last_steps`,
`self.action_info["manual_control"]`) are threaded as explicit state.
-/

/-- Modelled from the spec: `metadrive.utils.math.clip` is imported from
outside the fragment; the ActionPostProcessor of the spec "clips each channel
independently into [-1, 1]". -/
def clip (a low high : ℚ) : ℚ := min (max a low) high

/-- Source line 13: `JOYSTICK_DEADZONE = 0.025`. -/
def JOYSTICK_DEADZONE : ℚ := 25 / 1000

/-- The three controller classes from `metadrive.engine.core.manual_controller`
(outside the fragment); only their identity (for the `isinstance` dispatch in
`TakeoverPolicy.act`) and the `pygame_control` flag of the keyboard are modelled. -/
inductive Controller where
  | keyboardController (pygame_control : Bool)
  | steeringWheelController
  | xboxController
deriving DecidableEq, Repr

/-- Errors a controller-construction call can raise: the `ValueError` of
`get_controller` for an unrecognized name, and a device-driver failure when
instantiating a hardware controller (hardware unavailable). -/
inductive CtrlError where
  | unsupportedDevice
  | deviceUnavailable
deriving DecidableEq, Repr

deriving instance DecidableEq for Except

/-- Python `str.lower()` on the ASCII controller names used here, written so
that it evaluates inside the kernel. -/
def pyLower (s : String) : String := ⟨s.data.map Char.toLower⟩

/-- Shallow embedding of `get_controller` (source lines 16-39).  The
`XboxController()` / `SteeringWheelController()` constructors live outside the
fragment and may raise when hardware is missing; `xboxFails` / `wheelFails`
model that.  The result type is `Except CtrlError (Option Controller)` because
the docstring of the function promises "The instance of controller or None if
error", but the `try/except` that would return `None` is commented out in the
source (lines 31, 36-37), so every path either succeeds or raises. -/
def get_controller (xboxFails wheelFails : Bool) (controller_name : String)
    (pygame_control : Bool) : Except CtrlError (Option Controller) :=
  let n := pyLower controller_name
  if n = "keyboard" then
    .ok (some (.keyboardController pygame_control))
  else if n = "xboxController" ∨ n = "xboxcontroller" ∨ n = "xbox" ∨ n = "gamepad" ∨
      n = "joystick" ∨ n = "steering_wheel" ∨ n = "wheel" then
    if n = "steering_wheel" ∨ n = "wheel" then
      if wheelFails then .error .deviceUnavailable else .ok (some .steeringWheelController)
    else
      if xboxFails then .error .deviceUnavailable else .ok (some .xboxController)
  else
    .error .unsupportedDevice

/-- Controller selection in `ManualControlPolicy.__init__` (source lines
54-70): computes `pygame_control` from the config, calls `get_controller` when
`manual_control` is set, and falls back to a keyboard controller when
`get_controller` returns `None` (lines 66-68).  An exception raised by
`get_controller` propagates out of `__init__`. -/
def ManualControlPolicy.initController (xboxFails wheelFails : Bool)
    (manual_control use_render : Bool) (controller_name : String) :
    Except CtrlError (Option Controller) :=
  let pygame_control :=
    if manual_control && use_render then false
    else if manual_control then true
    else false
  if manual_control then
    match get_controller xboxFails wheelFails controller_name pygame_control with
    | .error e => .error e
    | .ok none => .ok (some (.keyboardController pygame_control))
    | .ok (some c) => .ok (some c)
  else
    .ok none

/-- An action is a well-formed continuous agent action when it has exactly two
components, each inside [-1, 1] (the AgentAction invariant of the spec). -/
def isAgentAction (a : List ℚ) : Prop := a.length = 2 ∧ ∀ x ∈ a, -1 ≤ x ∧ x ≤ 1

instance (a : List ℚ) : Decidable (isAgentAction a) := by
  unfold isAgentAction; infer_instance

/-- Per-tick inputs read by `TakeoverPolicy.act` (source lines 114-135) from
the engine and the controller: the result of `super().act(agent_id)` (the
`EnvInputPolicy` action), the raw action polled from the controller
(`controller.process_input(...)`), the discrete intent flags of the device, and the
engine queries guarding manual control. -/
structure TakeoverTick where
  agent_action : List ℚ
  expert_action : List ℚ
  left_shift_paddle : Bool
  right_shift_paddle : Bool
  kb_takeover : Bool
  button_a : Bool
  button_b : Bool
  button_x : Bool
  button_y : Bool
  manual_control : Bool
  is_track_agent : Bool
  is_bird_view : Bool
deriving DecidableEq

/-- Shallow embedding of `TakeoverPolicy.act` (source lines 114-135).  Returns
the pair `(self.takeover after the call, returned action)`.  The `isinstance`
chain on the controller becomes a `match`; a true device-intent condition sets
`takeover` and returns the raw device action unmodified, every other path
resets `takeover` and returns the env-input action. -/
def TakeoverPolicy.act (ctrl : Controller) (t : TakeoverTick) : Bool × List ℚ :=
  if t.manual_control ∧ t.is_track_agent ∧ ¬t.is_bird_view then
    match ctrl with
    | .steeringWheelController =>
      if t.left_shift_paddle ∨ t.right_shift_paddle then (true, t.expert_action)
      else (false, t.agent_action)
    | .keyboardController _ =>
      if t.kb_takeover ∨ |t.expert_action.sum| > 1 / 100 then (true, t.expert_action)
      else (false, t.agent_action)
    | .xboxController =>
      if t.button_a ∨ t.button_b ∨ t.button_x ∨ t.button_y ∨
          |t.expert_action.sum| > JOYSTICK_DEADZONE then (true, t.expert_action)
      else (false, t.agent_action)
  else
    (false, t.agent_action)

/-- Shallow embedding of `TakeoverPolicyWithoutBrake.act` (source lines
144-148): runs `TakeoverPolicy.act`, then zeroes the second channel when the
tick was a takeover and that channel is negative. -/
def TakeoverPolicyWithoutBrake.act (ctrl : Controller) (t : TakeoverTick) : Bool × List ℚ :=
  let r := TakeoverPolicy.act ctrl t
  if r.1 ∧ r.2.getD 1 0 < 0 then (r.1, r.2.set 1 0) else r

/-- The per-tick external input `self.engine.external_actions[agent_id]` read
by `PHIPolicy.act`: either a bare action vector or the structured record
carrying an action and the externally-forced takeover flag (`extra`). -/
inductive ExtInput where
  | bare (a : List ℚ)
  | withExtra (a : List ℚ) (extra : Bool)
deriving DecidableEq

/-- The action component of an external input. -/
def ExtInput.actionOf : ExtInput → List ℚ
  | .bare a => a
  | .withExtra a _ => a

/-- The forced-takeover flag of an external input (`False` for a bare
action, the `"extra"` field otherwise). -/
def ExtInput.extraOf : ExtInput → Bool
  | .bare _ => false
  | .withExtra _ e => e

/-- Modelled from the spec: `EnvInputPolicy.get_input_space` is outside the
fragment; the spec declares the per-tick external-action space as a 2-vector
box bounded to [-1, 1], so membership holds exactly for a bare 2-vector with
both components in range, and fails for the structured record. -/
def inputSpaceContains (e : ExtInput) : Prop :=
  match e with
  | .bare a => a.length = 2 ∧ ∀ x ∈ a, -1 ≤ x ∧ x ≤ 1
  | .withExtra _ _ => False

instance : (e : ExtInput) → Decidable (inputSpaceContains e)
  | .bare a => by unfold inputSpaceContains; infer_instance
  | .withExtra _ _ => by unfold inputSpaceContains; infer_instance

/-- Mutable attributes of a `PHIPolicy` instance threaded across ticks. -/
structure PHIState where
  takeover : Bool
  current_takeover_last_steps : ℕ
deriving DecidableEq

/-- Source line 156: `takeover_steps = 10`. -/
def PHIPolicy.takeover_steps : ℕ := 10

/-- Per-tick inputs read by `PHIPolicy.act` from the engine: the external
action, the numpy random draw of that tick, the raw controller-polled
action, and the config flags consulted by the tail of the method. -/
structure PHITick where
  ext_input : ExtInput
  rand : ℚ
  expert_action : List ℚ
  action_check : Bool
  discrete_action : Bool
deriving DecidableEq

/-- Shallow embedding of `PHIPolicy.act` (source lines 169-219), parametrised
by the `convert_to_continuous_action` lookup of `EnvInputPolicy` (outside the
fragment).  Returns the state after the call together with either the returned
clipped action or the `AssertionError` of the action check.  The state is
returned even when the assertion fires because in the source every mutation of
`self.takeover` / `self.current_takeover_last_steps` happens before the
`assert` statement. -/
def PHIPolicy.act (convert : List ℚ → List ℚ) (st : PHIState) (t : PHITick) :
    PHIState × Except String (List ℚ) :=
  -- lines 180-182: countdown expiry
  let tk0 := if st.current_takeover_last_steps ≥ PHIPolicy.takeover_steps then false
    else st.takeover
  let cnt0 := if st.current_takeover_last_steps ≥ PHIPolicy.takeover_steps then 0
    else st.current_takeover_last_steps
  -- lines 184-193: external action, forced flag, stochastic trigger
  let pre :=
    if tk0 then (([] : List ℚ), true)
    else
      let a := t.ext_input.actionOf
      let e := t.ext_input.extraOf
      (a, if t.rand < 1 / 10 then true else e)
  let tk1 := pre.2
  -- lines 196-203: takeover branch uses the device action without brake
  let post :=
    if tk1 then
      let ea := if t.expert_action.getD 1 0 < 0 then t.expert_action.set 1 0
        else t.expert_action
      (ea, cnt0 + 1)
    else (pre.1, cnt0)
  let st' : PHIState := ⟨tk1, post.2⟩
  -- lines 206-211: action check on the raw external input
  if t.action_check ∧ ¬inputSpaceContains t.ext_input then
    (st', .error "ActionSpaceMismatch")
  else
    -- lines 212-215: discrete conversion, then clip each channel
    let to_process := if t.discrete_action then convert post.1 else post.1
    (st', .ok (to_process.map (fun x => clip x (-1) 1)))

/-- Iterated `PHIPolicy.act` over a list of ticks, recording after each call
whether that call was under takeover (`self.takeover` after the call). -/
def PHIPolicy.run (convert : List ℚ → List ℚ) : PHIState → List PHITick → PHIState × List Bool
  | st, [] => (st, [])
  | st, t :: ts =>
    let r := PHIPolicy.act convert st t
    let rest := PHIPolicy.run convert r.1 ts
    (rest.1, r.1.takeover :: rest.2)

/-- Per-tick inputs read by `ManualControlPolicy.act` (source lines 72-94):
the `expert_takeover` flag of the tracked agent (after `process_others` ran the
toggle callback), the result of the `expert(...)` call (which can raise a
`ValueError` / `AssertionError` on an observation mismatch), the engine
queries guarding manual control, the polled controller action and the
env-input action. -/
structure MCTick where
  expert_takeover : Bool
  expert_result : Except Unit (List ℚ)
  manual_control : Bool
  is_track_agent : Bool
  main_camera_none : Bool
  is_bird_view : Bool
  device_action : List ℚ
  env_action : List ℚ

/-- Source lines 84-94: the authority decision and `ActionInfo` update common
to both paths after the expert block.  Returns
`(returned action, action_info["manual_control"] after the call)`. -/
def ManualControlPolicy.actBody (t : MCTick) : List ℚ × Bool :=
  let not_in_native_bev := t.main_camera_none || !t.is_bird_view
  if t.manual_control && t.is_track_agent && not_in_native_bev then
    (t.device_action, true)
  else
    (t.env_action, false)

/-- Shallow embedding of `ManualControlPolicy.act` (source lines 72-94),
with `prev_flag` the value of `action_info["manual_control"]` left by the
previous call.  The call dereferences `self.controller` unconditionally on
line 74, so it raises when no controller was constructed; when the expert
path returns early (line 78) the `manual_control` info flag is not written
and keeps its previous value.  The expert failure path (lines 79-82) prints,
toggles `expert_takeover` (a side effect on the agent, not on the returned
pair) and falls through to the authority decision. -/
def ManualControlPolicy.act (controller : Option Controller) (enable_expert prev_flag : Bool)
    (t : MCTick) : Except String (List ℚ × Bool) :=
  match controller with
  | none => .error "AttributeError"
  | some _ =>
    if t.expert_takeover && enable_expert then
      match t.expert_result with
      | .ok a => .ok (a, prev_flag)
      | .error _ => .ok (ManualControlPolicy.actBody t)
    else
      .ok (ManualControlPolicy.actBody t)

/-! ### Helper lemmas -/

theorem list_abs_sum_le (l : List ℚ) : |l.sum| ≤ (l.map (fun x => |x|)).sum := by
  induction l with
  | nil => simp
  | cons x xs ih =>
    simp only [List.sum_cons, List.map_cons]
    exact (abs_add x xs.sum).trans (by linarith)

theorem clip_mem (x : ℚ) : -1 ≤ clip x (-1) 1 ∧ clip x (-1) 1 ≤ 1 := by
  refine ⟨le_min (le_max_right x (-1)) (by norm_num), min_le_right _ _⟩

theorem clip_eq_self {x : ℚ} (h1 : -1 ≤ x) (h2 : x ≤ 1) : clip x (-1) 1 = x := by
  unfold clip
  rw [max_eq_left h1, min_eq_left h2]

/-- `TakeoverPolicy.act` either reports a takeover and returns the
raw controller action, or reports none and returns the env-input action. -/
theorem TakeoverPolicy.act_cases (ctrl : Controller) (t : TakeoverTick) :
    TakeoverPolicy.act ctrl t = (true, t.expert_action) ∨
    TakeoverPolicy.act ctrl t = (false, t.agent_action) := by
  unfold TakeoverPolicy.act
  split
  · cases ctrl <;> dsimp only <;> split <;> first | exact Or.inl rfl | exact Or.inr rfl
  · exact Or.inr rfl

/-- Whenever `TakeoverPolicy.act` reports a takeover, the returned action is
the raw controller action. -/
theorem TakeoverPolicy.act_snd_of_takeover (ctrl : Controller) (t : TakeoverTick)
    (h : (TakeoverPolicy.act ctrl t).1 = true) :
    (TakeoverPolicy.act ctrl t).2 = t.expert_action := by
  rcases TakeoverPolicy.act_cases ctrl t with hc | hc
  · rw [hc]
  · rw [hc] at h; exact absurd h (by simp)

/-- Whenever `TakeoverPolicy.act` reports no takeover, the returned action is
the env-input action. -/
theorem TakeoverPolicy.act_snd_of_no_takeover (ctrl : Controller) (t : TakeoverTick)
    (h : (TakeoverPolicy.act ctrl t).1 = false) :
    (TakeoverPolicy.act ctrl t).2 = t.agent_action := by
  rcases TakeoverPolicy.act_cases ctrl t with hc | hc
  · rw [hc] at h; exact absurd h (by simp)
  · rw [hc]

/-- Clipping a 2-element list into [-1, 1] channelwise yields a well-formed
agent action. -/
theorem isAgentAction_clip_map {l : List ℚ} (h : l.length = 2) :
    isAgentAction (l.map (fun x => clip x (-1) 1)) := by
  refine ⟨by simp [h], ?_⟩
  intro x hx
  obtain ⟨y, _, rfl⟩ := List.mem_map.mp hx
  exact clip_mem y

/-- Clipping acts as the identity on a channelwise in-range action. -/
theorem map_clip_id {l : List ℚ} (h : ∀ x ∈ l, -1 ≤ x ∧ x ≤ 1) :
    l.map (fun x => clip x (-1) 1) = l := by
  induction l with
  | nil => rfl
  | cons x xs ih =>
    simp only [List.map_cons]
    rw [clip_eq_self (h x (by simp)).1 (h x (by simp)).2,
        ih (fun y hy => h y (by simp [hy]))]

/-- Zeroing the second channel preserves well-formedness. -/
theorem isAgentAction_set_snd_zero {a : List ℚ} (h : isAgentAction a) :
    isAgentAction (a.set 1 0) := by
  refine ⟨by simp [h.1], ?_⟩
  intro x hx
  rcases List.mem_or_eq_of_mem_set hx with hmem | rfl
  · exact h.2 x hmem
  · norm_num

/-! ### Claims -/

/-- Concrete keyboard tick refuting C2: the raw action `[1/2, -1/2]` has
sum of absolute component values `1`, far above the `0.01` threshold, but the
code tests the absolute value of the (signed) sum, which is `0`. -/
def c2tick : TakeoverTick :=
  { agent_action := [0, 0], expert_action := [1/2, -1/2],
    left_shift_paddle := false, right_shift_paddle := false, kb_takeover := false,
    button_a := false, button_b := false, button_x := false, button_y := false,
    manual_control := true, is_track_agent := true, is_bird_view := false }

/-- C2 counterexample: under manual control with a keyboard, takeover flag
unset, and a raw action whose sum of absolute component values exceeds 0.01,
the code does not transition to MANUAL and returns the env-input action,
because `TakeoverPolicy.act` compares `|sum|` (here 0), not the sum of
absolute values (here 1), against the threshold. -/
theorem C2_counterexample :
    (c2tick.expert_action.map (fun x => |x|)).sum > 1 / 100 ∧
    c2tick.kb_takeover = false ∧
    c2tick.manual_control = true ∧ c2tick.is_track_agent = true ∧
    c2tick.is_bird_view = false ∧
    TakeoverPolicy.act (.keyboardController false) c2tick = (false, [0, 0]) := by
  have h1 : |(1:ℚ)/2| = 1/2 := abs_of_nonneg (by norm_num)
  have h2 : |(-1:ℚ)/2| = 1/2 := by
    rw [show ((-1:ℚ)/2) = -(1/2) by norm_num, abs_neg, h1]
  refine ⟨by norm_num [c2tick, h1, h2], rfl, rfl, rfl, rfl, ?_⟩
  norm_num [TakeoverPolicy.act, c2tick]

/-- C2 amended: under manual control with a keyboard device, while tracked and
not in bird view, the arbiter transitions to MANUAL and returns the keyboard
raw action exactly when the keyboard takeover flag is set or the ABSOLUTE
VALUE OF THE SUM of the raw-action components exceeds 0.01; otherwise the
env-input action is used. -/
theorem C2_keyboard_takeover_condition (pg : Bool) (t : TakeoverTick)
    (hm : t.manual_control = true) (htr : t.is_track_agent = true)
    (hbv : t.is_bird_view = false) :
    TakeoverPolicy.act (.keyboardController pg) t =
      if t.kb_takeover = true ∨ |t.expert_action.sum| > 1 / 100
      then (true, t.expert_action) else (false, t.agent_action) := by
  unfold TakeoverPolicy.act
  by_cases hk : t.kb_takeover <;>
    by_cases hs : |t.expert_action.sum| > 1 / 100 <;>
      simp [hm, htr, hbv, hk, hs]

/-- Concrete keyboard tick with the takeover flag set. -/
def c2wtick : TakeoverTick :=
  { agent_action := [0, 0], expert_action := [1/5, 0],
    left_shift_paddle := false, right_shift_paddle := false, kb_takeover := true,
    button_a := false, button_b := false, button_x := false, button_y := false,
    manual_control := true, is_track_agent := true, is_bird_view := false }

/-- Witness for C2: the amended keyboard condition evaluated on a concrete
tick with the takeover flag set. -/
theorem C2_witness :
    c2wtick.manual_control = true ∧
    TakeoverPolicy.act (.keyboardController false) c2wtick =
      if c2wtick.kb_takeover = true ∨ |c2wtick.expert_action.sum| > 1 / 100
      then (true, c2wtick.expert_action) else (false, c2wtick.agent_action) :=
  ⟨rfl, C2_keyboard_takeover_condition false c2wtick rfl rfl rfl⟩

/-- C3: with a gamepad, a raw action whose sum of absolute component values is
at most the deadzone 0.025 never triggers MANUAL when none of the A/B/X/Y
buttons is pressed, and the own action of the agent is returned: the code compares
`|sum|`, which is bounded by the sum of absolute values. -/
theorem C3_gamepad_deadzone (t : TakeoverTick)
    (ha : t.button_a = false) (hb : t.button_b = false)
    (hx : t.button_x = false) (hy : t.button_y = false)
    (hdz : (t.expert_action.map (fun x => |x|)).sum ≤ JOYSTICK_DEADZONE) :
    TakeoverPolicy.act .xboxController t = (false, t.agent_action) := by
  have habs : ¬(|t.expert_action.sum| > JOYSTICK_DEADZONE) :=
    not_lt.mpr ((list_abs_sum_le _).trans hdz)
  unfold TakeoverPolicy.act
  split
  · simp [ha, hb, hx, hy, habs]
  · rfl

/-- Concrete gamepad tick inside the deadzone. -/
def c3tick : TakeoverTick :=
  { agent_action := [1/4, 1/4], expert_action := [1/100, -1/100],
    left_shift_paddle := false, right_shift_paddle := false, kb_takeover := false,
    button_a := false, button_b := false, button_x := false, button_y := false,
    manual_control := true, is_track_agent := true, is_bird_view := false }

/-- Witness for C3: a concrete in-deadzone gamepad tick. -/
theorem C3_witness :
    (c3tick.expert_action.map (fun x => |x|)).sum ≤ JOYSTICK_DEADZONE ∧
    TakeoverPolicy.act .xboxController c3tick = (false, c3tick.agent_action) := by
  have h1 : |(1:ℚ)/100| = 1/100 := abs_of_nonneg (by norm_num)
  have h2 : |(-1:ℚ)/100| = 1/100 := by
    rw [show ((-1:ℚ)/100) = -(1/100) by norm_num, abs_neg, h1]
  have hdz : (c3tick.expert_action.map (fun x => |x|)).sum ≤ JOYSTICK_DEADZONE := by
    norm_num [c3tick, JOYSTICK_DEADZONE, h1, h2]
  exact ⟨hdz, C3_gamepad_deadzone c3tick rfl rfl rfl rfl hdz⟩

/-- The controller names recognized by `get_controller` after lowercasing.
The `"xboxController"` entry is retained from the source list even though a
lowercased name can never match it. -/
def recognizedControllerNames : List String :=
  ["keyboard", "xboxController", "xboxcontroller", "xbox", "gamepad", "joystick",
   "steering_wheel", "wheel"]

/-- C6: controller construction by name is case-insensitive (it depends only
on the lowercased name), maps each recognized name to exactly one device
variant (keyboard to Keyboard; xbox, gamepad, joystick to the Xbox gamepad;
steering_wheel, wheel to the steering wheel), and raises for every
unrecognized name. -/
theorem C6_controller_name_mapping :
    (∀ xf wf : Bool, ∀ n nn : String, ∀ pg : Bool, pyLower n = pyLower nn →
       get_controller xf wf n pg = get_controller xf wf nn pg) ∧
    (∀ pg : Bool,
       get_controller false false "keyboard" pg = .ok (some (.keyboardController pg)) ∧
       get_controller false false "xbox" pg = .ok (some .xboxController) ∧
       get_controller false false "gamepad" pg = .ok (some .xboxController) ∧
       get_controller false false "joystick" pg = .ok (some .xboxController) ∧
       get_controller false false "steering_wheel" pg = .ok (some .steeringWheelController) ∧
       get_controller false false "wheel" pg = .ok (some .steeringWheelController)) ∧
    (∀ xf wf : Bool, ∀ n : String, ∀ pg : Bool, pyLower n ∉ recognizedControllerNames →
       get_controller xf wf n pg = .error .unsupportedDevice) := by
  refine ⟨?_, ?_, ?_⟩
  · intro xf wf n nn pg h
    unfold get_controller
    rw [h]
  · intro pg
    cases pg <;> exact ⟨by decide, by decide, by decide, by decide, by decide, by decide⟩
  · intro xf wf n pg h
    simp only [recognizedControllerNames, List.mem_cons, List.not_mem_nil, or_false,
      not_or] at h
    obtain ⟨h1, h2, h3, h4, h5, h6, h7, h8⟩ := h
    simp [get_controller, h1, h2, h3, h4, h5, h6, h7, h8]

/-- Witness for C6: case-insensitivity on "KeyBoard" and the unsupported
name "joypad2". -/
theorem C6_witness :
    pyLower "KeyBoard" = pyLower "keyboard" ∧
    get_controller false false "KeyBoard" true = get_controller false false "keyboard" true ∧
    pyLower "joypad2" ∉ recognizedControllerNames ∧
    get_controller false false "joypad2" true = .error .unsupportedDevice :=
  ⟨by decide, C6_controller_name_mapping.1 false false "KeyBoard" "keyboard" true (by decide),
   by decide, C6_controller_name_mapping.2.2 false false "joypad2" true (by decide)⟩

/-- C7 (code bug evidence): with `manual_control` and `use_render` enabled and
controller name `"xbox"`, a failing Xbox device instantiation propagates out
of policy construction as an error instead of falling back to the keyboard:
the `try/except` in `get_controller` that would return `None` is commented out
in the source, so the `None` fallback branch of `ManualControlPolicy.__init__`
(lines 66-68) is unreachable — `get_controller` never returns `None` for any
name or failure mode. -/
theorem C7_device_failure_propagates :
    ManualControlPolicy.initController true false true true "xbox" =
      .error CtrlError.deviceUnavailable ∧
    ∀ xf wf : Bool, ∀ n : String, ∀ pg : Bool,
      (∃ e, get_controller xf wf n pg = .error e) ∨
      (∃ c, get_controller xf wf n pg = .ok (some c)) := by
  refine ⟨by decide, ?_⟩
  intro xf wf n pg
  by_cases h1 : pyLower n = "keyboard"
  · exact .inr ⟨.keyboardController pg, by simp [get_controller, h1]⟩
  · by_cases h2 : pyLower n = "xboxController" ∨ pyLower n = "xboxcontroller" ∨
      pyLower n = "xbox" ∨ pyLower n = "gamepad" ∨ pyLower n = "joystick" ∨
      pyLower n = "steering_wheel" ∨ pyLower n = "wheel"
    · by_cases h3 : pyLower n = "steering_wheel" ∨ pyLower n = "wheel"
      · cases wf
        · exact .inr ⟨.steeringWheelController, by simp [get_controller, h1, h2, h3]⟩
        · exact .inl ⟨.deviceUnavailable, by simp [get_controller, h1, h2, h3]⟩
      · have h4 : pyLower n = "xboxController" ∨ pyLower n = "xboxcontroller" ∨
          pyLower n = "xbox" ∨ pyLower n = "gamepad" ∨ pyLower n = "joystick" := by tauto
        cases xf
        · exact .inr ⟨.xboxController, by simp [get_controller, h1, h2, h3, h4]⟩
        · exact .inl ⟨.deviceUnavailable, by simp [get_controller, h1, h2, h3, h4]⟩
    · exact .inl ⟨.unsupportedDevice, by simp [get_controller, h1, h2]⟩

/-- Takeover flag after the countdown-expiry check of a `PHIPolicy.act` call
(derived decomposition used in proofs). -/
def phiTk0 (st : PHIState) : Bool :=
  if st.current_takeover_last_steps ≥ PHIPolicy.takeover_steps then false else st.takeover

/-- Step counter after the countdown-expiry check. -/
def phiCnt0 (st : PHIState) : ℕ :=
  if st.current_takeover_last_steps ≥ PHIPolicy.takeover_steps then 0
  else st.current_takeover_last_steps

/-- Takeover flag effective for the tick, after reading the external record
and the stochastic trigger. -/
def phiTk1 (st : PHIState) (t : PHITick) : Bool :=
  if phiTk0 st then true
  else if t.rand < 1 / 10 then true else t.ext_input.extraOf

/-- The action selected by the tick before conversion and clipping: the
brake-suppressed device action under takeover, the external action
otherwise. -/
def phiChosen (st : PHIState) (t : PHITick) : List ℚ :=
  if phiTk1 st t then
    (if t.expert_action.getD 1 0 < 0 then t.expert_action.set 1 0 else t.expert_action)
  else t.ext_input.actionOf

/-- The policy state after the tick. -/
def phiNextState (st : PHIState) (t : PHITick) : PHIState :=
  ⟨phiTk1 st t, if phiTk1 st t then phiCnt0 st + 1 else phiCnt0 st⟩

/-- `PHIPolicy.act` decomposed into its derived parts. -/
theorem PHIPolicy.act_eq (convert : List ℚ → List ℚ) (st : PHIState) (t : PHITick) :
    PHIPolicy.act convert st t =
      (phiNextState st t,
       if t.action_check ∧ ¬inputSpaceContains t.ext_input then .error "ActionSpaceMismatch"
       else .ok ((if t.discrete_action then convert (phiChosen st t)
         else phiChosen st t).map (fun x => clip x (-1) 1))) := by
  unfold PHIPolicy.act phiNextState phiChosen phiTk1 phiTk0 phiCnt0
  by_cases h1 : st.current_takeover_last_steps ≥ PHIPolicy.takeover_steps <;>
    by_cases h2 : st.takeover <;>
      by_cases h3 : t.rand < 1 / 10 <;>
        cases he : t.ext_input.extraOf <;>
          simp [h1, h2, h3, he, apply_ite Prod.fst, apply_ite Prod.snd] <;>
            (split <;> rfl)

/-- The state after a `PHIPolicy.act` call. -/
theorem PHIPolicy.act_fst (convert : List ℚ → List ℚ) (st : PHIState) (t : PHITick) :
    (PHIPolicy.act convert st t).1 = phiNextState st t := by
  rw [PHIPolicy.act_eq]

/-- Under takeover with the countdown still running, a call keeps the MANUAL
state and increments the counter, whatever the tick inputs are. -/
theorem PHIPolicy.act_manual_step (convert : List ℚ → List ℚ) (st : PHIState) (t : PHITick)
    (htk : st.takeover = true)
    (hc : st.current_takeover_last_steps < PHIPolicy.takeover_steps) :
    (PHIPolicy.act convert st t).1 = ⟨true, st.current_takeover_last_steps + 1⟩ := by
  rw [PHIPolicy.act_fst]
  simp [phiNextState, phiTk1, phiTk0, phiCnt0, htk, not_le.mpr hc]

/-- Running from a MANUAL state with counter `c ≥ 1` through enough ticks to
reach the countdown bound keeps the state MANUAL throughout. -/
theorem PHIPolicy.run_manual (convert : List ℚ → List ℚ) (ts : List PHITick) :
    ∀ c : ℕ, 1 ≤ c → c + ts.length = PHIPolicy.takeover_steps →
    PHIPolicy.run convert ⟨true, c⟩ ts =
      (⟨true, PHIPolicy.takeover_steps⟩, List.replicate ts.length true) := by
  induction ts with
  | nil =>
    intro c _ hlen
    simp only [List.length_nil, Nat.add_zero] at hlen
    subst hlen
    rfl
  | cons t ts ih =>
    intro c hc hlen
    have hlt : c < PHIPolicy.takeover_steps := by
      simp only [List.length_cons] at hlen; omega
    have hstep := PHIPolicy.act_manual_step convert ⟨true, c⟩ t rfl hlt
    have hrest := ih (c + 1) (by omega) (by simp only [List.length_cons] at hlen; omega)
    simp only [PHIPolicy.run, hstep]
    rw [hrest]
    simp [List.replicate_succ]

/-- A call from a MANUAL state whose counter has reached the bound resets the
counter, drops the MANUAL flag and re-evaluates the trigger: the external
forced flag of the record or the stochastic draw below 0.1. -/
theorem PHIPolicy.act_expiry (convert : List ℚ → List ℚ) (st : PHIState) (t : PHITick)
    (hc : st.current_takeover_last_steps = PHIPolicy.takeover_steps) :
    (PHIPolicy.act convert st t).1 =
      ⟨(if t.rand < 1 / 10 then true else t.ext_input.extraOf),
       if (if t.rand < 1 / 10 then true else t.ext_input.extraOf) = true then 1 else 0⟩ := by
  rw [PHIPolicy.act_fst]
  have h0 : st.current_takeover_last_steps ≥ PHIPolicy.takeover_steps := le_of_eq hc.symm
  by_cases h3 : t.rand < 1 / 10 <;>
    simp [phiNextState, phiTk1, phiTk0, phiCnt0, h0, h3]

/-- C4: in `PHIPolicy`, a tick that enters MANUAL from the idle state leaves
the counter at 1; the following `takeover_steps - 1` calls stay MANUAL
regardless of their input, ending with counter `takeover_steps`; and the call
after that expires the countdown, resets the counter, and re-evaluates the
trigger (stochastic draw below 0.1 or external forced flag), reverting to
AUTONOMOUS when the trigger is off. -/
theorem C4_minimum_duration (convert : List ℚ → List ℚ)
    (st0 : PHIState) (t0 : PHITick) (ts : List PHITick) (tlast : PHITick)
    (hidle : st0.takeover = false) (hcnt : st0.current_takeover_last_steps = 0)
    (htrig : t0.rand < 1 / 10 ∨ t0.ext_input.extraOf = true)
    (hlen : ts.length = PHIPolicy.takeover_steps - 1) :
    (PHIPolicy.act convert st0 t0).1 = ⟨true, 1⟩ ∧
    PHIPolicy.run convert ⟨true, 1⟩ ts =
      (⟨true, PHIPolicy.takeover_steps⟩,
       List.replicate (PHIPolicy.takeover_steps - 1) true) ∧
    (PHIPolicy.act convert ⟨true, PHIPolicy.takeover_steps⟩ tlast).1 =
      ⟨(if tlast.rand < 1 / 10 then true else tlast.ext_input.extraOf),
       if (if tlast.rand < 1 / 10 then true else tlast.ext_input.extraOf) = true
       then 1 else 0⟩ := by
  refine ⟨?_, ?_, PHIPolicy.act_expiry convert _ tlast rfl⟩
  · rw [PHIPolicy.act_fst]
    have h0 : ¬ st0.current_takeover_last_steps ≥ PHIPolicy.takeover_steps := by
      rw [hcnt]; decide
    have htk0 : phiTk0 st0 = false := by simp [phiTk0, h0, hidle]
    have htk1 : phiTk1 st0 t0 = true := by
      rcases htrig with h | h
      · simp [phiTk1, htk0]
        exact Or.inl (by linarith)
      · simp [phiTk1, htk0, h]
    simp [phiNextState, htk1, phiCnt0, h0, hcnt]
  · have hr := PHIPolicy.run_manual convert ts 1 le_rfl (by rw [hlen]; decide)
    rw [hlen] at hr
    exact hr

/-- An entering tick for the C4 scenario: stochastic draw 0 fires the
trigger; no action check, continuous actions. -/
def c4tickOn : PHITick :=
  { ext_input := .bare [0, 0], rand := 0, expert_action := [0, 0],
    action_check := false, discrete_action := false }

/-- An expiry tick for the C4 scenario: draw 1/2 misses the trigger and the
bare external action carries no forced flag. -/
def c4tickOff : PHITick :=
  { ext_input := .bare [0, 0], rand := 1/2, expert_action := [0, 0],
    action_check := false, discrete_action := false }

/-- Witness for C4: a concrete MANUAL period of exactly ten ticks followed
by an expiry tick that reverts to AUTONOMOUS. -/
theorem C4_witness :
    (PHIPolicy.act id ⟨false, 0⟩ c4tickOn).1 = ⟨true, 1⟩ ∧
    PHIPolicy.run id ⟨true, 1⟩ (List.replicate 9 c4tickOn) =
      (⟨true, PHIPolicy.takeover_steps⟩,
       List.replicate (PHIPolicy.takeover_steps - 1) true) ∧
    (PHIPolicy.act id ⟨true, PHIPolicy.takeover_steps⟩ c4tickOff).1 = ⟨false, 0⟩ := by
  have h := C4_minimum_duration id ⟨false, 0⟩ c4tickOn (List.replicate 9 c4tickOn) c4tickOff
    rfl rfl (Or.inl (by norm_num [c4tickOn])) rfl
  refine ⟨h.1, h.2.1, ?_⟩
  rw [h.2.2]
  norm_num [c4tickOff, ExtInput.extraOf]

/-- C8: with `action_check` enabled, `PHIPolicy.act` asserts membership of
the pre-clip external input in the declared input space: it raises a
propagated error exactly when the external input lies outside the space, and
returns an action otherwise. -/
theorem C8_action_check_raises (convert : List ℚ → List ℚ) (st : PHIState) (t : PHITick)
    (hck : t.action_check = true) :
    (¬inputSpaceContains t.ext_input →
       (PHIPolicy.act convert st t).2 = .error "ActionSpaceMismatch") ∧
    (inputSpaceContains t.ext_input →
       ∃ out, (PHIPolicy.act convert st t).2 = .ok out) := by
  rw [PHIPolicy.act_eq]
  constructor
  · intro h
    simp [hck, h]
  · intro h
    simp [hck, h]

/-- The C8 scenario input: external action `[2, 0]` against the space bounded
to [-1, 1], with the action check enabled. -/
def c8tick : PHITick :=
  { ext_input := .bare [2, 0], rand := 1/2, expert_action := [0, 0],
    action_check := true, discrete_action := false }

/-- Witness for C8: external action `[2, 0]` against the [-1, 1] box with the
action check enabled. -/
theorem C8_witness :
    c8tick.action_check = true ∧
    (PHIPolicy.act id ⟨false, 0⟩ c8tick).2 = .error "ActionSpaceMismatch" := by
  refine ⟨rfl, (C8_action_check_raises id ⟨false, 0⟩ c8tick rfl).1 ?_⟩
  intro h
  exact absurd (h.2 2 (by simp [c8tick])).2 (by norm_num)

/-- C10: the `action_check` assertion in `PHIPolicy.act` is applied to the
raw per-tick external input, not to the returned action: the structured
`\x7baction, extra\x7d` record always fails the check, even when its inner
action lies within the declared space, and an out-of-space external input
raises even on a tick whose state is MANUAL, where the returned action would
have been the device action. -/
theorem C10_assert_on_raw_input (convert : List ℚ → List ℚ) (st : PHIState) (t : PHITick)
    (hck : t.action_check = true) :
    (∀ a e, t.ext_input = .withExtra a e →
       (PHIPolicy.act convert st t).2 = .error "ActionSpaceMismatch") ∧
    (st.takeover = true → st.current_takeover_last_steps < PHIPolicy.takeover_steps →
       ¬inputSpaceContains t.ext_input →
       (PHIPolicy.act convert st t).1.takeover = true ∧
       (PHIPolicy.act convert st t).2 = .error "ActionSpaceMismatch") := by
  constructor
  · intro a e he
    rw [PHIPolicy.act_eq]
    have : ¬inputSpaceContains t.ext_input := by rw [he]; simp [inputSpaceContains]
    simp [hck, this]
  · intro htk hcnt h
    have h1 : (PHIPolicy.act convert st t).1.takeover = true := by
      rw [PHIPolicy.act_manual_step convert st t htk hcnt]
    refine ⟨h1, ?_⟩
    rw [PHIPolicy.act_eq]
    simp [hck, h]

/-- A C10 scenario input: the structured record carries an inner action
inside the space, yet the record itself is not a member of the space. -/
def c10tick : PHITick :=
  { ext_input := .withExtra [0, 0] false, rand := 1/2, expert_action := [0, 0],
    action_check := true, discrete_action := false }

/-- A second C10 scenario input: out-of-space bare action on a MANUAL tick. -/
def c10tick2 : PHITick :=
  { ext_input := .bare [2, 0], rand := 1/2, expert_action := [1/2, 1/2],
    action_check := true, discrete_action := false }

/-- Witness for C10: a structured record with an in-space inner action still
raises, and an out-of-space bare action raises on a MANUAL tick. -/
theorem C10_witness :
    (isAgentAction ([0, 0] : List ℚ) ∧
     (PHIPolicy.act id ⟨false, 0⟩ c10tick).2 = .error "ActionSpaceMismatch") ∧
    ((PHIPolicy.act id ⟨true, 3⟩ c10tick2).1.takeover = true ∧
     (PHIPolicy.act id ⟨true, 3⟩ c10tick2).2 = .error "ActionSpaceMismatch") := by
  constructor
  · refine ⟨⟨rfl, ?_⟩,
      (C10_assert_on_raw_input id ⟨false, 0⟩ c10tick rfl).1 [0, 0] false rfl⟩
    intro x hx
    rcases List.mem_cons.mp hx with rfl | hx
    · norm_num
    · rcases List.mem_cons.mp hx with rfl | hx
      · norm_num
      · exact absurd hx (List.not_mem_nil x)
  · refine (C10_assert_on_raw_input id ⟨true, 3⟩ c10tick2 rfl).2 rfl (by decide) ?_
    intro h
    exact absurd (h.2 2 (by simp [c10tick2])).2 (by norm_num)

/-- C5: in the brake-suppression variants, a MANUAL-sourced action with a
negative second (throttle/brake) channel is returned with that channel zeroed
and the steering channel unchanged, while AUTONOMOUS-sourced actions are not
modified by the suppression.  In `PHIPolicy` the suppressed action then goes
through the clip stage, which leaves the zeroed channel at 0 and keeps an
in-range steering value unchanged. -/
theorem C5_brake_suppression (ctrl : Controller) (t : TakeoverTick)
    (convert : List ℚ → List ℚ) (st : PHIState) (pt : PHITick)
    (hlen : t.expert_action.length = 2)
    (hplen : pt.expert_action.length = 2)
    (hdisc : pt.discrete_action = false) :
    ((TakeoverPolicy.act ctrl t).1 = true → t.expert_action.getD 1 0 < 0 →
       TakeoverPolicyWithoutBrake.act ctrl t = (true, t.expert_action.set 1 0) ∧
       (TakeoverPolicyWithoutBrake.act ctrl t).2.getD 1 0 = 0 ∧
       (TakeoverPolicyWithoutBrake.act ctrl t).2.getD 0 0 = t.expert_action.getD 0 0) ∧
    ((TakeoverPolicy.act ctrl t).1 = false →
       TakeoverPolicyWithoutBrake.act ctrl t = (false, t.agent_action)) ∧
    (st.takeover = true → st.current_takeover_last_steps < PHIPolicy.takeover_steps →
       pt.expert_action.getD 1 0 < 0 →
       ∀ out, (PHIPolicy.act convert st pt).2 = .ok out →
         out.getD 1 0 = 0 ∧
         out.getD 0 0 = clip (pt.expert_action.getD 0 0) (-1) 1 ∧
         (-1 ≤ pt.expert_action.getD 0 0 → pt.expert_action.getD 0 0 ≤ 1 →
            out.getD 0 0 = pt.expert_action.getD 0 0)) ∧
    (st.takeover = false → st.current_takeover_last_steps = 0 →
       ¬(pt.rand < 1 / 10) → pt.ext_input.extraOf = false →
       (∀ x ∈ pt.ext_input.actionOf, -1 ≤ x ∧ x ≤ 1) →
       ∀ out, (PHIPolicy.act convert st pt).2 = .ok out →
         out = pt.ext_input.actionOf) := by
  obtain ⟨s, b, hsb⟩ := List.length_eq_two.mp hlen
  obtain ⟨ps, pb, hpsb⟩ := List.length_eq_two.mp hplen
  refine ⟨?_, ?_, ?_, ?_⟩
  · intro htk hneg
    have hb : b < 0 := by simpa [hsb] using hneg
    have hpair : TakeoverPolicy.act ctrl t = (true, t.expert_action) :=
      Prod.ext htk (TakeoverPolicy.act_snd_of_takeover ctrl t htk)
    have hres : TakeoverPolicyWithoutBrake.act ctrl t = (true, t.expert_action.set 1 0) := by
      simp [TakeoverPolicyWithoutBrake.act, hpair, hsb, hb]
    refine ⟨hres, ?_, ?_⟩
    · rw [hres, hsb]; simp
    · rw [hres, hsb]; simp
  · intro hntk
    have hpair : TakeoverPolicy.act ctrl t = (false, t.agent_action) :=
      Prod.ext hntk (TakeoverPolicy.act_snd_of_no_takeover ctrl t hntk)
    simp [TakeoverPolicyWithoutBrake.act, hpair]
  · intro htk hcnt hneg out hout
    have hpb : pb < 0 := by simpa [hpsb] using hneg
    have htk1 : phiTk1 st pt = true := by
      simp [phiTk1, phiTk0, htk, not_le.mpr hcnt]
    have hch : phiChosen st pt = [ps, 0] := by
      simp [phiChosen, htk1, hpsb, hpb]
    have h0 : clip 0 (-1) 1 = 0 := clip_eq_self (by norm_num) (by norm_num)
    rw [PHIPolicy.act_eq] at hout
    split at hout
    · exact absurd hout (by simp)
    · have hout2 := Except.ok.inj hout
      rw [hdisc, if_neg Bool.false_ne_true, hch] at hout2
      subst hout2
      refine ⟨by simp [h0], by simp [hpsb], ?_⟩
      intro hl hr
      rw [hpsb] at hl hr
      simp only [List.getD_cons_zero] at hl hr
      simp [clip_eq_self hl hr, hpsb]
  · intro hntk hcnt hrand hextra hin out hout
    have htk1 : phiTk1 st pt = false := by
      simp [phiTk1, phiTk0, hntk, hextra]
      exact not_lt.mp (by rwa [one_div] at hrand)
    have hch : phiChosen st pt = pt.ext_input.actionOf := by
      simp [phiChosen, htk1]
    rw [PHIPolicy.act_eq] at hout
    split at hout
    · exact absurd hout (by simp)
    · have hout2 := Except.ok.inj hout
      rw [hdisc, if_neg Bool.false_ne_true, hch] at hout2
      rw [← hout2]
      exact map_clip_id hin

/-- Steering-wheel tick with a paddle pressed and a braking device action. -/
def c5tick : TakeoverTick :=
  { agent_action := [0, 0], expert_action := [1/2, -1/2],
    left_shift_paddle := true, right_shift_paddle := false, kb_takeover := false,
    button_a := false, button_b := false, button_x := false, button_y := false,
    manual_control := true, is_track_agent := true, is_bird_view := false }

/-- PHI tick with a braking device action and an in-range external action. -/
def c5ptick : PHITick :=
  { ext_input := .bare [1/4, 1/4], rand := 1/2, expert_action := [1/2, -1/2],
    action_check := false, discrete_action := false }

/-- Witness for C5: concrete braking device actions through both variants,
and a pass-through autonomous tick. -/
theorem C5_witness :
    TakeoverPolicyWithoutBrake.act .steeringWheelController c5tick =
      (true, c5tick.expert_action.set 1 0) ∧
    (PHIPolicy.act id ⟨true, 3⟩ c5ptick).2 = .ok [1/2, 0] ∧
    ([1/2, 0] : List ℚ).getD 1 0 = 0 ∧
    ([1/2, 0] : List ℚ).getD 0 0 = c5ptick.expert_action.getD 0 0 ∧
    (PHIPolicy.act id ⟨false, 0⟩ c5ptick).2 = .ok c5ptick.ext_input.actionOf := by
  have hc5 := C5_brake_suppression .steeringWheelController c5tick id ⟨true, 3⟩ c5ptick
    rfl rfl rfl
  have htk : (TakeoverPolicy.act .steeringWheelController c5tick).1 = true := by
    simp [TakeoverPolicy.act, c5tick]
  have hneg : c5tick.expert_action.getD 1 0 < 0 := by norm_num [c5tick]
  have hclip : ([1/2, 0] : List ℚ).map (fun x => clip x (-1) 1) = [1/2, 0] := by
    refine map_clip_id ?_
    intro x hx
    simp at hx
    rcases hx with rfl | rfl <;> constructor <;> norm_num
  have hok : (PHIPolicy.act id ⟨true, 3⟩ c5ptick).2 = .ok [1/2, 0] := by
    rw [PHIPolicy.act_eq]
    have htk1 : phiTk1 ⟨true, 3⟩ c5ptick = true := by
      unfold phiTk1
      rw [show phiTk0 ⟨true, 3⟩ = true from rfl, if_pos rfl]
    have hb : c5ptick.expert_action.getD 1 0 < 0 := by norm_num [c5ptick]
    have hch : phiChosen ⟨true, 3⟩ c5ptick = [1/2, 0] := by
      unfold phiChosen
      rw [htk1, if_pos rfl, if_pos hb]
      norm_num [c5ptick]
    rw [if_neg (by simp [c5ptick]), hch]
    simp [c5ptick]
    exact ⟨clip_eq_self (by norm_num) (by norm_num), clip_eq_self (by norm_num) (by norm_num)⟩
  have hclip2 : ([1/4, 1/4] : List ℚ).map (fun x => clip x (-1) 1) = [1/4, 1/4] := by
    refine map_clip_id ?_
    intro x hx
    simp at hx
    rcases hx with rfl <;> constructor <;> norm_num
  have hok2 : (PHIPolicy.act id ⟨false, 0⟩ c5ptick).2 = .ok [1/4, 1/4] := by
    rw [PHIPolicy.act_eq]
    have htk1 : phiTk1 ⟨false, 0⟩ c5ptick = false := by
      unfold phiTk1
      rw [show phiTk0 ⟨false, 0⟩ = false from rfl, if_neg Bool.false_ne_true,
          if_neg (by norm_num [c5ptick])]
      rfl
    have hch : phiChosen ⟨false, 0⟩ c5ptick = [1/4, 1/4] := by
      unfold phiChosen
      rw [htk1, if_neg Bool.false_ne_true]
      rfl
    rw [if_neg (by simp [c5ptick]), hch]
    simp [c5ptick]
    exact clip_eq_self (by norm_num) (by norm_num)
  have hc5b := C5_brake_suppression .steeringWheelController c5tick id ⟨false, 0⟩ c5ptick
    rfl rfl rfl
  have hext := hc5b.2.2.2 rfl rfl (by norm_num [c5ptick]) rfl
    (by intro x hx; simp [c5ptick, ExtInput.actionOf] at hx; rcases hx with rfl <;>
        constructor <;> norm_num)
    [1/4, 1/4] hok2
  refine ⟨(hc5.1 htk hneg).1, hok, by simp, by norm_num [c5ptick], ?_⟩
  rw [hok2, hext]

/-- A two-element list with both entries in range is a well-formed action. -/
theorem isAgentAction_pair {a b : ℚ} (ha1 : -1 ≤ a) (ha2 : a ≤ 1)
    (hb1 : -1 ≤ b) (hb2 : b ≤ 1) : isAgentAction [a, b] := by
  refine ⟨rfl, ?_⟩
  intro x hx
  simp at hx
  rcases hx with rfl | rfl
  · exact ⟨ha1, ha2⟩
  · exact ⟨hb1, hb2⟩

/-- The authority decision of `ManualControlPolicy.act` returns either the
device action or the env-input action. -/
theorem ManualControlPolicy.actBody_fst_range (mt : MCTick)
    (h3 : isAgentAction mt.env_action) (h4 : isAgentAction mt.device_action) :
    isAgentAction (ManualControlPolicy.actBody mt).1 := by
  simp only [ManualControlPolicy.actBody]
  split
  · exact h4
  · exact h3

/-- C1: given the device, expert and env-input contracts (each supplies a
2-vector with components in [-1, 1]; modelled from the spec since the
controllers, `expert` and `EnvInputPolicy` are outside the fragment), every
action returned by an `act` call of any of the four policies is a 2-vector
with components in [-1, 1].  `PHIPolicy` enforces the range itself by
clipping whatever action its arbitration chose, including the device action
chosen under MANUAL. -/
theorem C1_act_in_range (ctrl : Controller) (t : TakeoverTick)
    (c : Controller) (enable_expert prev_flag : Bool) (mt : MCTick)
    (convert : List ℚ → List ℚ) (st : PHIState) (pt : PHITick) (out : List ℚ)
    (h1 : isAgentAction t.agent_action) (h2 : isAgentAction t.expert_action)
    (h3 : isAgentAction mt.env_action) (h4 : isAgentAction mt.device_action)
    (h5 : ∀ a, mt.expert_result = .ok a → isAgentAction a)
    (h6 : pt.discrete_action = false)
    (h7 : pt.ext_input.actionOf.length = 2) (h8 : pt.expert_action.length = 2)
    (h9 : (PHIPolicy.act convert st pt).2 = .ok out) :
    isAgentAction (TakeoverPolicy.act ctrl t).2 ∧
    isAgentAction (TakeoverPolicyWithoutBrake.act ctrl t).2 ∧
    (∀ p, ManualControlPolicy.act (some c) enable_expert prev_flag mt = .ok p →
       isAgentAction p.1) ∧
    isAgentAction out := by
  refine ⟨?_, ?_, ?_, ?_⟩
  · rcases TakeoverPolicy.act_cases ctrl t with hc | hc <;> rw [hc]
    · exact h2
    · exact h1
  · unfold TakeoverPolicyWithoutBrake.act
    rcases TakeoverPolicy.act_cases ctrl t with hc | hc <;> rw [hc] <;> dsimp only <;> split
    · exact isAgentAction_set_snd_zero h2
    · exact h2
    · exact isAgentAction_set_snd_zero h1
    · exact h1
  · intro p hp
    simp only [ManualControlPolicy.act] at hp
    split at hp
    · split at hp
      next a heq =>
        have hpe := Except.ok.inj hp
        rw [← hpe]
        exact h5 a heq
      next heq =>
        have hpe := Except.ok.inj hp
        rw [← hpe]
        exact ManualControlPolicy.actBody_fst_range mt h3 h4
    · have hpe := Except.ok.inj hp
      rw [← hpe]
      exact ManualControlPolicy.actBody_fst_range mt h3 h4
  · rw [PHIPolicy.act_eq] at h9
    split at h9
    · exact absurd h9 (by simp)
    · have h10 := Except.ok.inj h9
      rw [h6, if_neg Bool.false_ne_true] at h10
      rw [← h10]
      refine isAgentAction_clip_map ?_
      unfold phiChosen
      split
      · split
        · simp [h8]
        · exact h8
      · exact h7

/-- Gamepad tick with a button pressed and in-range actions. -/
def c1tick : TakeoverTick :=
  { agent_action := [0, 0], expert_action := [1/5, 0],
    left_shift_paddle := false, right_shift_paddle := false, kb_takeover := false,
    button_a := true, button_b := false, button_x := false, button_y := false,
    manual_control := true, is_track_agent := true, is_bird_view := false }

/-- ManualControlPolicy tick taking the expert early-return path. -/
def c1mtick : MCTick :=
  { expert_takeover := true, expert_result := .ok [0, 0], manual_control := true,
    is_track_agent := true, main_camera_none := false, is_bird_view := false,
    device_action := [1/5, 0], env_action := [0, 0] }

/-- PHI tick with an in-range external action and no takeover trigger. -/
def c1ptick : PHITick :=
  { ext_input := .bare [1/4, 1/4], rand := 1/2, expert_action := [0, 0],
    action_check := false, discrete_action := false }

/-- Witness for C1: concrete in-range inputs through all four policies. -/
theorem C1_witness :
    isAgentAction (TakeoverPolicy.act .xboxController c1tick).2 ∧
    isAgentAction (TakeoverPolicyWithoutBrake.act .xboxController c1tick).2 ∧
    isAgentAction (([0, 0], false) : List ℚ × Bool).1 ∧
    isAgentAction ([1/4, 1/4] : List ℚ) := by
  have h9 : (PHIPolicy.act id ⟨false, 0⟩ c1ptick).2 = .ok [1/4, 1/4] := by
    rw [PHIPolicy.act_eq]
    have htk1 : phiTk1 ⟨false, 0⟩ c1ptick = false := by
      unfold phiTk1
      rw [show phiTk0 ⟨false, 0⟩ = false from rfl, if_neg Bool.false_ne_true,
          if_neg (by norm_num [c1ptick])]
      rfl
    have hch : phiChosen ⟨false, 0⟩ c1ptick = [1/4, 1/4] := by
      unfold phiChosen
      rw [htk1, if_neg Bool.false_ne_true]
      rfl
    rw [if_neg (by simp [c1ptick]), hch]
    simp [c1ptick]
    exact clip_eq_self (by norm_num) (by norm_num)
  have h := C1_act_in_range .xboxController c1tick (.keyboardController false) true false
    c1mtick id ⟨false, 0⟩ c1ptick [1/4, 1/4]
    (by rw [show c1tick.agent_action = [0, 0] from rfl]
        exact isAgentAction_pair (by norm_num) (by norm_num) (by norm_num) (by norm_num))
    (by rw [show c1tick.expert_action = [1/5, 0] from rfl]
        exact isAgentAction_pair (by norm_num) (by norm_num) (by norm_num) (by norm_num))
    (by rw [show c1mtick.env_action = [0, 0] from rfl]
        exact isAgentAction_pair (by norm_num) (by norm_num) (by norm_num) (by norm_num))
    (by rw [show c1mtick.device_action = [1/5, 0] from rfl]
        exact isAgentAction_pair (by norm_num) (by norm_num) (by norm_num) (by norm_num))
    (by intro a ha
        rw [← Except.ok.inj ha]
        exact isAgentAction_pair (by norm_num) (by norm_num) (by norm_num) (by norm_num))
    rfl rfl rfl h9
  exact ⟨h.1, h.2.1, h.2.2.1 ([0, 0], false) rfl, h.2.2.2⟩

/-- First counterexample tick for C9: manual-control conditions hold, so the
device action is used and the info flag is set. -/
def c9tick1 : MCTick :=
  { expert_takeover := false, expert_result := .error (), manual_control := true,
    is_track_agent := true, main_camera_none := false, is_bird_view := false,
    device_action := [1/2, 0], env_action := [0, 0] }

/-- Second counterexample tick for C9: the agent is no longer the tracked
agent (so the claim requires the env action and a false flag), but the
expert-takeover early return fires with a successful expert call. -/
def c9tick2 : MCTick :=
  { expert_takeover := true, expert_result := .ok [1/4, 1/4], manual_control := true,
    is_track_agent := false, main_camera_none := false, is_bird_view := false,
    device_action := [1/2, 0], env_action := [0, 0] }

/-- C9 counterexample: on the first tick the manual branch sets the info flag
to true; on the next tick the agent is not tracked — the claim then requires
the env action `[0, 0]` and flag `false` — yet the expert early return hands
back the expert action `[1/4, 1/4]` with the flag still `true`, because that
return path never writes `action_info["manual_control"]`. -/
theorem C9_counterexample :
    ManualControlPolicy.act (some (.keyboardController false)) true false c9tick1 =
      .ok (c9tick1.device_action, true) ∧
    c9tick2.is_track_agent = false ∧
    c9tick2.env_action = [0, 0] ∧
    ManualControlPolicy.act (some (.keyboardController false)) true true c9tick2 =
      .ok ([1/4, 1/4], true) :=
  ⟨rfl, rfl, rfl, rfl⟩

/-- C9 amended: the device action is used with the info flag set to true
exactly when the manual-control feature is enabled, the agent is tracked and
the camera is not in bird view, provided the expert early-return path is not
taken; when that path is taken (expert-takeover flag and expert enabled and
the expert call succeeds) the expert action is returned and the info flag
keeps its value from the previous tick; in every remaining case the env-input
action is returned with the flag false.  For the takeover policies, a
transition to MANUAL likewise happens only when those three conditions
hold. -/
theorem C9_manual_authority (c : Controller) (enable_expert prev_flag : Bool) (t : MCTick) :
    ((t.expert_takeover = true → enable_expert = true →
        ∀ a, t.expert_result ≠ .ok a) →
       ManualControlPolicy.act (some c) enable_expert prev_flag t =
         .ok (if t.manual_control ∧ t.is_track_agent ∧
                (t.main_camera_none ∨ ¬t.is_bird_view)
              then (t.device_action, true) else (t.env_action, false))) ∧
    (∀ a, t.expert_takeover = true → enable_expert = true → t.expert_result = .ok a →
       ManualControlPolicy.act (some c) enable_expert prev_flag t = .ok (a, prev_flag)) ∧
    (∀ ctrl : Controller, ∀ tt : TakeoverTick, (TakeoverPolicy.act ctrl tt).1 = true →
       tt.manual_control = true ∧ tt.is_track_agent = true ∧ tt.is_bird_view = false) := by
  have hbody : ManualControlPolicy.actBody t =
      (if t.manual_control ∧ t.is_track_agent ∧ (t.main_camera_none ∨ ¬t.is_bird_view)
       then (t.device_action, true) else (t.env_action, false)) := by
    simp only [ManualControlPolicy.actBody]
    by_cases hm : t.manual_control <;>
      by_cases htr : t.is_track_agent <;>
        by_cases hcam : t.main_camera_none <;>
          by_cases hbv : t.is_bird_view <;>
            simp [hm, htr, hcam, hbv]
  refine ⟨?_, ?_, ?_⟩
  · intro hne
    simp only [ManualControlPolicy.act]
    split
    next hexp =>
      split
      next a heq =>
        rw [Bool.and_eq_true] at hexp
        exact absurd heq (hne hexp.1 hexp.2 a)
      next => rw [hbody]
    next => rw [hbody]
  · intro a hexp hen heq
    simp only [ManualControlPolicy.act, hexp, hen, heq]
    simp
  · intro ctrl tt htk
    by_cases hg : tt.manual_control = true ∧ tt.is_track_agent = true ∧ tt.is_bird_view = false
    · exact hg
    · exfalso
      have : TakeoverPolicy.act ctrl tt = (false, tt.agent_action) := by
        unfold TakeoverPolicy.act
        rw [if_neg (by simpa using hg)]
      rw [this] at htk
      exact absurd htk (by simp)

/-- A keyboard tick with the takeover key held, for the only-if direction. -/
def c9tick3 : TakeoverTick :=
  { agent_action := [0, 0], expert_action := [1/5, 0],
    left_shift_paddle := false, right_shift_paddle := false, kb_takeover := true,
    button_a := false, button_b := false, button_x := false, button_y := false,
    manual_control := true, is_track_agent := true, is_bird_view := false }

/-- Witness for C9: the amended characterization applied to the concrete
ticks of the counterexample and a takeover tick for the only-if part. -/
theorem C9_witness :
    ManualControlPolicy.act (some (.keyboardController false)) true false c9tick1 =
      .ok (if c9tick1.manual_control ∧ c9tick1.is_track_agent ∧
             (c9tick1.main_camera_none ∨ ¬c9tick1.is_bird_view)
           then (c9tick1.device_action, true) else (c9tick1.env_action, false)) ∧
    ManualControlPolicy.act (some (.keyboardController false)) true true c9tick2 =
      .ok ([1/4, 1/4], true) ∧
    (c9tick3.manual_control = true ∧ c9tick3.is_track_agent = true ∧
      c9tick3.is_bird_view = false) := by
  have h1 := C9_manual_authority (.keyboardController false) true false c9tick1
  have h2 := C9_manual_authority (.keyboardController false) true true c9tick2
  refine ⟨h1.1 ?_, h2.2.1 [1/4, 1/4] rfl rfl rfl, ?_⟩
  · intro hexp
    exact absurd hexp (by simp [c9tick1])
  · refine h2.2.2 (.keyboardController false) c9tick3 ?_
    simp [TakeoverPolicy.act, c9tick3]
